import Mathlib

/-!
Shallow embedding of the MEGA-to-Telegram relay bot (src/), covering the
SessionStore (src/bot/database/db.py), the retry policy
(src/bot/mega/downloader.py), the progress tracker (src/bot/utils/progress.py),
and the transfer pipeline with its entry points
(src/bot/handlers/download.py, src/main.py).

Conventions: SQL timestamps are naturals passed in as `now`; SQLite statement
semantics are modelled exactly (a statement that would violate the
UNIQUE(user_id, status) constraint fails and is rolled back as a whole, and a
method whose statement fails raises before its final commit, so the store is
left as it was when the method started — in this code base only the *first*
statement of a method can fail, so no partially-committed state arises).
SQLite foreign-key enforcement is OFF by default and db.py never issues
`PRAGMA foreign_keys = ON`, so the `ON DELETE CASCADE` clause of
session_files is modelled as inert: deleting sessions does not touch files.
-/

namespace MegaBot

/-- Session status values used by db.py ('pending', 'downloading',
'completed', 'cancelled'). -/
inductive SessionStatus
  | pending
  | downloading
  | completed
  | cancelled
deriving DecidableEq, Repr

/-- session_files.status values ('pending', 'completed'). -/
inductive FileStatus
  | pending
  | completed
deriving DecidableEq, Repr

/-- One row of the `sessions` table. -/
structure SessionRow where
  id : Nat
  userId : Nat
  folderLink : String
  currentIndex : Nat
  status : SessionStatus
  createdAt : Nat
  updatedAt : Nat
deriving DecidableEq, Repr

/-- One row of the `session_files` table (the AUTOINCREMENT id column is
omitted: no code reads it). -/
structure FileRow where
  sessionId : Nat
  fileIndex : Nat
  fileHandle : String
  fileName : String
  fileSize : Nat
  status : FileStatus
deriving DecidableEq, Repr

/-- The SQLite database: both tables plus the sessions AUTOINCREMENT counter. -/
structure Db where
  sessions : List SessionRow
  files : List FileRow
  nextSessionId : Nat
deriving DecidableEq, Repr

/-- The empty database right after `_create_tables`. -/
def Db.empty : Db := ⟨[], [], 1⟩

/-- The storage-layer error surfaced by aiosqlite: violation of
UNIQUE(user_id, status). -/
inductive SqlError
  | uniqueViolation
deriving DecidableEq, Repr

/-- The column pair covered by the UNIQUE(user_id, status) constraint. -/
def sessionKey (r : SessionRow) : Nat × SessionStatus := (r.userId, r.status)

/-- The UNIQUE(user_id, status) table constraint. -/
def uniqueOk (rows : List SessionRow) : Prop := (rows.map sessionKey).Nodup

instance (rows : List SessionRow) : Decidable (uniqueOk rows) :=
  inferInstanceAs (Decidable ((rows.map sessionKey).Nodup))

/-- Test for `status IN ('pending', 'downloading')` — an active session. -/
def isActive (st : SessionStatus) : Bool :=
  st == .pending || st == .downloading

/-- One entry of the `files` list handed to create_session
(dict with keys handle/name/size from MegaDownloader.get_folder_files). -/
structure FileInfo where
  handle : String
  name : String
  size : Nat
deriving DecidableEq, Repr

/-- Row-level effect of the cancel-old UPDATE of create_session. -/
def cancelOldSessions (userId now : Nat) (l : List SessionRow) :
    List SessionRow :=
  l.map fun r =>
    if r.userId == userId && isActive r.status then
      { r with status := .cancelled, updatedAt := now }
    else r

/-- First statement of create_session: `UPDATE sessions SET status='cancelled',
updated_at=now WHERE user_id=? AND status IN ('pending','downloading')`.
SQLite checks UNIQUE(user_id, status) while updating; on violation the whole
statement is rolled back and the method raises. -/
def cancelOldStmt (userId now : Nat) (db : Db) : Except SqlError Db :=
  if uniqueOk (cancelOldSessions userId now db.sessions) then
    .ok { db with sessions := cancelOldSessions userId now db.sessions }
  else .error .uniqueViolation

/-- The row inserted by create_session: explicit status 'downloading', the
current_index column default 0, both timestamps CURRENT_TIMESTAMP. -/
def newSessionRow (userId : Nat) (link : String) (now id : Nat) : SessionRow :=
  ⟨id, userId, link, 0, .downloading, now, now⟩

/-- Second statement of create_session: `INSERT INTO sessions (user_id,
folder_link, status) VALUES (?, ?, 'downloading')`. -/
def insertSessionStmt (userId : Nat) (link : String) (now : Nat) (db : Db) :
    Except SqlError (Nat × Db) :=
  if uniqueOk (db.sessions ++ [newSessionRow userId link now db.nextSessionId])
  then
    .ok (db.nextSessionId,
      { db with
        sessions := db.sessions ++ [newSessionRow userId link now db.nextSessionId],
        nextSessionId := db.nextSessionId + 1 })
  else .error .uniqueViolation

/-- The per-file INSERT loop of create_session: file_index is the enumerate
index, status defaults to 'pending'. session_files has no UNIQUE constraint,
so these statements cannot fail. -/
def insertFilesStmt (sid : Nat) (files : List FileInfo) (db : Db) : Db :=
  { db with files := db.files ++ files.mapIdx fun i f =>
      { sessionId := sid, fileIndex := i, fileHandle := f.handle,
        fileName := f.name, fileSize := f.size, status := .pending } }

/-- Database.create_session: cancel old actives, insert the new 'downloading'
session, bulk-insert the files, commit.  A statement failure raises before
the commit, leaving the store unchanged (only the first statement can fail). -/
def create_session (userId : Nat) (link : String) (files : List FileInfo)
    (now : Nat) (db : Db) : Except SqlError (Nat × Db) :=
  match cancelOldStmt userId now db with
  | .error e => .error e
  | .ok db1 =>
    match insertSessionStmt userId link now db1 with
    | .error e => .error e
    | .ok (sid, db2) => .ok (sid, insertFilesStmt sid files db2)

/-- Database.get_session: the user's active session, `ORDER BY created_at
DESC LIMIT 1` (tie order among equal created_at is unspecified in SQLite; the
fold below keeps the last row with maximal created_at — under the at-most-one
-active invariant the filtered list has at most one element anyway). -/
def get_session (userId : Nat) (db : Db) : Option SessionRow :=
  (db.sessions.filter fun r => r.userId == userId && isActive r.status).foldl
    (fun acc r =>
      match acc with
      | none => some r
      | some b => if b.createdAt ≤ r.createdAt then some r else some b)
    none

/-- Comparison used to model `ORDER BY file_index`. -/
def byIndex (a b : FileRow) : Prop := a.fileIndex ≤ b.fileIndex

instance : DecidableRel byIndex := fun a b =>
  inferInstanceAs (Decidable (a.fileIndex ≤ b.fileIndex))

instance : IsTotal FileRow byIndex :=
  ⟨fun a b => Nat.le_total a.fileIndex b.fileIndex⟩

instance : IsTrans FileRow byIndex :=
  ⟨fun _ _ _ h h' => Nat.le_trans h h'⟩

/-- Database.get_session_files: the session's rows `ORDER BY file_index`. -/
def get_session_files (sid : Nat) (db : Db) : List FileRow :=
  (db.files.filter fun f => f.sessionId == sid).insertionSort byIndex

/-- Database.update_session_index: set current_index and updated_at on the
session row, then mark every file with file_index < new_index 'completed',
then commit.  Neither statement touches (user_id, status), so neither can
violate the UNIQUE constraint. -/
def update_session_index (sid newIndex now : Nat) (db : Db) : Db :=
  { db with
    sessions := db.sessions.map fun r =>
      if r.id == sid then { r with currentIndex := newIndex, updatedAt := now }
      else r,
    files := db.files.map fun f =>
      if f.sessionId == sid && f.fileIndex < newIndex then
        { f with status := .completed }
      else f }

/-- Row-level effect of the session UPDATE of complete_session /
cancel_session: move the addressed session to the given terminal status. -/
def setStatusSessions (sid now : Nat) (st : SessionStatus)
    (l : List SessionRow) : List SessionRow :=
  l.map fun r =>
    if r.id == sid then { r with status := st, updatedAt := now } else r

/-- Database.complete_session: set the session's status to 'completed' (this
UPDATE can violate UNIQUE(user_id, status) if the user already has a completed
session), then mark all its files 'completed', then commit. -/
def complete_session (sid now : Nat) (db : Db) : Except SqlError Db :=
  if uniqueOk (setStatusSessions sid now .completed db.sessions) then
    .ok { db with sessions := setStatusSessions sid now .completed db.sessions,
                  files := db.files.map fun f =>
                    if f.sessionId == sid then { f with status := .completed }
                    else f }
  else .error .uniqueViolation

/-- Database.cancel_session: set the session's status to 'cancelled'. -/
def cancel_session (sid now : Nat) (db : Db) : Except SqlError Db :=
  if uniqueOk (setStatusSessions sid now .cancelled db.sessions) then
    .ok { db with sessions := setStatusSessions sid now .cancelled db.sessions }
  else .error .uniqueViolation

/-- Database.get_all_pending_sessions: sessions with status 'downloading'
(ordering by updated_at DESC is irrelevant to the claims; membership only). -/
def get_all_pending_sessions (db : Db) : List SessionRow :=
  db.sessions.filter fun r => r.status == .downloading

/-- Test for `st IN ('completed', 'cancelled')` — a terminal session. -/
def isTerminal (st : SessionStatus) : Bool :=
  st == .completed || st == .cancelled

/-- Database.cleanup_old_sessions: `DELETE FROM sessions WHERE status IN
('completed','cancelled') AND updated_at < cutoff`.  The connection never
enables SQLite foreign-key enforcement (no `PRAGMA foreign_keys = ON`
anywhere in db.py), so the declared ON DELETE CASCADE on session_files does
NOT fire: the files table is left untouched. -/
def cleanup_old_sessions (cutoff : Nat) (db : Db) : Db :=
  { db with sessions := db.sessions.filter fun r =>
      !(isTerminal r.status && r.updatedAt < cutoff) }

/-- Forget the updated_at column (the one field AdvanceCursor may legitimately
change on a repeated call). -/
def SessionRow.eraseTs (r : SessionRow) : SessionRow := { r with updatedAt := 0 }

/-- The user's sessions with status in {Pending, Downloading}. -/
def activeSessionsFor (u : Nat) (db : Db) : List SessionRow :=
  db.sessions.filter fun r => r.userId == u && isActive r.status

/-- Database states reachable through the Database API from a fresh store.
A method whose statement fails raises before its commit and leaves the store
unchanged, so failed calls do not change the reachable state. -/
inductive Reachable : Db → Prop
  | empty : Reachable Db.empty
  | create {db db' : Db} {u now sid : Nat} {link : String}
      {files : List FileInfo} :
      Reachable db → create_session u link files now db = .ok (sid, db') →
      Reachable db'
  | advance {db : Db} (sid n now : Nat) :
      Reachable db → Reachable (update_session_index sid n now db)
  | complete {db db' : Db} {sid now : Nat} :
      Reachable db → complete_session sid now db = .ok db' → Reachable db'
  | cancel {db db' : Db} {sid now : Nat} :
      Reachable db → cancel_session sid now db = .ok db' → Reachable db'
  | cleanup {db : Db} (cutoff : Nat) :
      Reachable db → Reachable (cleanup_old_sessions cutoff db)

/-- Store invariant: the UNIQUE(user_id, status) constraint holds, and no
session ever carries status 'pending' (create_session inserts with explicit
status 'downloading'; the schema default 'pending' is never exercised). -/
def Inv (db : Db) : Prop :=
  uniqueOk db.sessions ∧ ∀ r ∈ db.sessions, r.status ≠ .pending

/-- A file-list entry used by the concrete scenarios. -/
def fX : FileInfo := ⟨"h1", "doc.txt", 5⟩

/-- Store after a first successful create_session 7 "A" [fX] at time 0. -/
def dbA : Db :=
  ⟨[⟨1, 7, "A", 0, .downloading, 0, 0⟩],
   [⟨1, 0, "h1", "doc.txt", 5, .pending⟩], 2⟩

/-- Store after a second successful create_session 7 "B" [fX] at time 1. -/
def dbB : Db :=
  ⟨[⟨1, 7, "A", 0, .cancelled, 0, 1⟩, ⟨2, 7, "B", 0, .downloading, 1, 1⟩],
   [⟨1, 0, "h1", "doc.txt", 5, .pending⟩, ⟨2, 0, "h1", "doc.txt", 5, .pending⟩],
   3⟩

/-- A store with one stale terminal session (user 7, with a file row), one
stale active session (user 8) and one fresh terminal session (user 9). -/
def dbC9 : Db :=
  ⟨[⟨1, 7, "L1", 3, .completed, 0, 10⟩,
    ⟨2, 8, "L2", 1, .downloading, 0, 10⟩,
    ⟨3, 9, "L3", 2, .cancelled, 0, 500⟩],
   [⟨1, 0, "h1", "doc.txt", 5, .completed⟩], 4⟩

/-- A store with one downloading session owning three files, used to witness
the AdvanceCursor claims. -/
def dbC7 : Db :=
  ⟨[⟨1, 7, "A", 0, .downloading, 0, 0⟩],
   [⟨1, 0, "h1", "a.txt", 5, .pending⟩,
    ⟨1, 1, "h2", "b.txt", 6, .pending⟩,
    ⟨1, 2, "h3", "c.txt", 7, .pending⟩], 2⟩

/-! ### Config (src/bot/utils/config.py, environment-variable defaults) -/

namespace Config

/-- MAX_RETRIES default. -/
def MAX_RETRIES : Nat := 5

/-- RETRY_DELAY default (seconds). -/
def RETRY_DELAY : Nat := 60

/-- MAX_FILE_SIZE default (2 GiB). -/
def MAX_FILE_SIZE : Nat := 2147483648

end Config

/-! ### Retry policy (src/bot/mega/downloader.py)

`MegaDownloader.download_file` is decorated with tenacity's
`@retry(stop=stop_after_attempt(Config.MAX_RETRIES),
        wait=wait_exponential(multiplier=1, min=4, max=60),
        retry=retry_if_exception_type(MegaQuotaError))`.
tenacity numbers attempts from 1; after failed attempt number `a` it sleeps
`clamp(min=4, max=60, multiplier * 2 ^ a)` seconds, retries only
MegaQuotaError, and raises RetryError (wrapping the last attempt) once the
attempt count reaches the stop bound, without a further sleep.  All the
parameter values are integral, so the float arithmetic is modelled on Nat. -/

/-- Outcome of one raw download attempt inside `download_with_progress`:
success, a MegaQuotaError (message contains 'quota'/'bandwidth'/'over'), or a
MegaDownloadError (whose message, by that very classification, contains no
'quota'). -/
inductive AttemptResult
  | ok
  | quota
  | other
deriving DecidableEq, Repr

/-- Events emitted by the decorated download: the 0-indexed attempts and the
backoff sleeps between them. -/
inductive RetryEvent
  | attempt (i : Nat)
  | sleep (secs : Nat)
deriving DecidableEq, Repr

/-- What download_file surfaces to its caller. -/
inductive DlResult
  | ok
  | megaError
  | retryError (last : AttemptResult)
deriving DecidableEq, Repr

/-- tenacity `wait_exponential(multiplier=1, min=4, max=60)` evaluated at
1-based attempt number `a`: `max(min, min(max, multiplier * 2 ^ a))`. -/
def tenacityWait (a : Nat) : Nat := max 4 (min 60 (2 ^ a))

/-- The tenacity retry loop around one file's download.  `dl i` is the raw
outcome of 0-indexed attempt `i`; `remaining` is the number of attempts the
stop condition still allows (initially Config.MAX_RETRIES); `i` counts
attempts already made.  The `remaining = 0` branch is unreachable from
`download_file` below. -/
def tenacityLoop (dl : Nat → AttemptResult) :
    Nat → Nat → List RetryEvent × DlResult
  | 0, _ => ([], .retryError .quota)
  | remaining + 1, i =>
    match dl i with
    | .ok => ([.attempt i], .ok)
    | .other => ([.attempt i], .megaError)
    | .quota =>
      if remaining = 0 then ([.attempt i], .retryError .quota)
      else
        let rest := tenacityLoop dl remaining (i + 1)
        (.attempt i :: .sleep (tenacityWait (i + 1)) :: rest.1, rest.2)

/-- MegaDownloader.download_file under its @retry decorator, as the trace of
attempts/sleeps plus the surfaced result. -/
def download_file (dl : Nat → AttemptResult) : List RetryEvent × DlResult :=
  tenacityLoop dl Config.MAX_RETRIES 0

/-- Number of attempts download_file makes: one more than the number of
leading quota failures, capped at MAX_RETRIES. -/
def numAttempts (dl : Nat → AttemptResult) : Nat :=
  match (List.range Config.MAX_RETRIES).find? (fun i => dl i != .quota) with
  | some i => i + 1
  | none => Config.MAX_RETRIES

/-! ### ProgressTracker (src/bot/utils/progress.py)

Wall-clock instants and the float-valued fields are modelled on ℚ.
`int(...)` in `eta = int(remaining / speed)` truncates toward zero. -/

/-- Python `int()` on a rational: truncation toward zero. -/
def ratTrunc (q : ℚ) : Int := if 0 ≤ q then ⌊q⌋ else ⌈q⌉

/-- The per-user ProgressData dataclass. -/
structure ProgressData where
  current : Nat
  total : Nat
  speed : ℚ
  eta : Int
  percentage : ℚ
  filename : String
  status : String
  start_time : ℚ
  last_update : ℚ
deriving DecidableEq, Repr

namespace ProgressTracker

/-- ProgressTracker.create_session: fresh snapshot with status
'downloading', start_time and last_update stamped now, everything else at
the dataclass defaults. -/
def create_session (filename : String) (total : Nat) (now : ℚ) : ProgressData :=
  { current := 0, total := total, speed := 0, eta := 0, percentage := 0,
    filename := filename, status := "downloading",
    start_time := now, last_update := now }

/-- ProgressTracker.update for a user whose snapshot exists, under the
per-user lock: set current; recompute percentage when total > 0; recompute
speed when elapsed > 0 and then eta when speed > 0; finally return True and
stamp last_update iff `now - last_update >= update_interval`. -/
def update (T : ℚ) (d : ProgressData) (current : Nat) (now : ℚ) :
    ProgressData × Bool :=
  let d1 := { d with current := current }
  let d2 :=
    if 0 < d1.total then
      { d1 with percentage := ((current : ℚ) / (d1.total : ℚ)) * 100 }
    else d1
  let elapsed := now - d2.start_time
  let d3 :=
    if 0 < elapsed then
      let speed : ℚ := (current : ℚ) / elapsed
      let d' := { d2 with speed := speed }
      if 0 < speed then
        { d' with eta := ratTrunc (((d'.total : ℚ) - (current : ℚ)) / speed) }
      else d'
    else d2
  if T ≤ now - d3.last_update then
    ({ d3 with last_update := now }, true)
  else (d3, false)

/-- ProgressTracker.set_status for a user whose snapshot exists. -/
def set_status (d : ProgressData) (status : String) : ProgressData :=
  { d with status := status }

end ProgressTracker

/-! ### Link validation (src/bot/utils/helpers.py)

`is_valid_mega_link` runs `re.match` (anchored at the start, arbitrary
suffix allowed) for four patterns over the character class [a-zA-Z0-9_-].
The separators '#' and '!' are outside that class, so the regexes' greedy
`+` never needs backtracking and a longest-munch scan is exact. -/

/-- The regex character class [a-zA-Z0-9_-]. -/
def megaSafeChar (c : Char) : Bool :=
  ('a' ≤ c && c ≤ 'z') || ('A' ≤ c && c ≤ 'Z') || ('0' ≤ c && c ≤ '9') ||
    c == '_' || c == '-'

/-- Consume an exact literal, returning the remainder. -/
def dropLit : List Char → List Char → Option (List Char)
  | [], cs => some cs
  | _ :: _, [] => none
  | p :: ps, c :: cs => if c == p then dropLit ps cs else none

/-- Longest-munch over [a-zA-Z0-9_-]: count consumed and remainder. -/
def takeSafe : List Char → Nat × List Char
  | [] => (0, [])
  | c :: cs =>
    if megaSafeChar c then
      let r := takeSafe cs
      (r.1 + 1, r.2)
    else (0, c :: cs)

/-- Match `[a-zA-Z0-9_-]+ sep [a-zA-Z0-9_-]+` at the head of the input. -/
def matchSepPair (sep : Char) (cs : List Char) : Bool :=
  let r := takeSafe cs
  0 < r.1 &&
    (match r.2 with
     | c :: rest => c == sep && 0 < (takeSafe rest).1
     | [] => false)

/-- Match `folder/ID#KEY` or `#F!ID!KEY` at the head of the input. -/
def matchTail (cs : List Char) : Bool :=
  (match dropLit "folder/".toList cs with
   | some rest => matchSepPair '#' rest
   | none => false) ||
  (match dropLit "#F!".toList cs with
   | some rest => matchSepPair '!' rest
   | none => false)

/-- Match `mega.nz/...` or `mega.co.nz/...` at the head of the input. -/
def matchHost (cs : List Char) : Bool :=
  (match dropLit "mega.nz/".toList cs with
   | some rest => matchTail rest
   | none => false) ||
  (match dropLit "mega.co.nz/".toList cs with
   | some rest => matchTail rest
   | none => false)

/-- helpers.is_valid_mega_link. -/
def is_valid_mega_link (s : String) : Bool :=
  match dropLit "https://".toList s.toList with
  | some rest => matchHost rest
  | none =>
    match dropLit "http://".toList s.toList with
    | some rest => matchHost rest
    | none => false

/-! ### Transfer pipeline (src/bot/handlers/download.py, src/main.py)

`process_mega_folder` is modelled as a function of an environment (the
external collaborators and the time-varying ActiveFlag) returning the trace
of observable actions, the final store, and the run outcome.  The ActiveFlag
is read at exactly three kinds of places — the top of each loop iteration,
right after the handler-level backoff sleep, and once after the loop — and
`env.flags j` is the value the j-th such read returns.  The tenacity-level
retries inside download_file contain no flag read at all, faithfully to the
source. -/

/-- Outcome of `context.bot.send_document` for a given file index: success,
or an exception whose text may (`q = true`) or may not contain 'quota'. -/
inductive UploadOutcome
  | ok
  | err (q : Bool)
deriving DecidableEq, Repr

/-- The external collaborators and the ActiveFlag read sequence. -/
structure Env where
  listFolder : Except Unit (List FileInfo)
  dl : Nat → Nat → AttemptResult
  actualSize : Nat → Option Nat
  upload : Nat → UploadOutcome
  flags : Nat → Bool

/-- Observable actions of one pipeline run. -/
inductive Ev
  | flagRead (j : Nat) (v : Bool)
  | skip (idx : Nat)
  | dlAttempt (idx attempt : Nat)
  | retrySleep (secs : Nat)
  | upload (idx : Nat)
  | deleteLocal (idx : Nat)
  | advance (n : Nat)
  | quotaNotify (idx : Nat)
  | backoffSleep (secs : Nat)
  | failNotify (idx : Nat)
  | cancelledNotify
  | completeNotify
deriving DecidableEq, Repr

/-- The per-file exception reaching the handler's `except` block.  The
handler classifies it by `'quota' in str(e).lower()`: true for a tenacity
RetryError (its text embeds 'MegaQuotaError'), false for a
MegaDownloadError (the downloader's own classification guarantees its
message avoids 'quota'), false for the two integrity errors (their messages
are 'Size mismatch: expected N, got M' and 'Download failed: <filename>';
filenames containing 'quota' are excluded from the model), and given by `q`
for an upload exception. -/
inductive FileErr
  | retryExhausted
  | download
  | missing
  | sizeMismatch
  | upload (q : Bool)
deriving DecidableEq, Repr

/-- The handler classification `'quota' in str(e).lower()`. -/
def FileErr.quotaClassified : FileErr → Bool
  | .retryExhausted => true
  | .upload q => q
  | _ => false

/-- The pipeline-level view of the retry-decorated download's events for a
given file index. -/
def dlEvents (idx : Nat) (l : List RetryEvent) : List Ev :=
  l.map fun e =>
    match e with
    | .attempt i => Ev.dlAttempt idx i
    | .sleep s => Ev.retrySleep s

/-- The per-file body of the loop after the size gate: download under the
retry decorator, verify existence and exact size, upload, and delete the
local artifact on every path (success after the upload, failure inside the
except block).  Returns the events plus the exception, if any, reaching the
handler's except block. -/
def handleFile (env : Env) (idx expectedSize : Nat) :
    List Ev × Option FileErr :=
  match (download_file (env.dl idx)).2 with
  | .megaError =>
    (dlEvents idx (download_file (env.dl idx)).1 ++ [.deleteLocal idx],
     some .download)
  | .retryError _ =>
    (dlEvents idx (download_file (env.dl idx)).1 ++ [.deleteLocal idx],
     some .retryExhausted)
  | .ok =>
    match env.actualSize idx with
    | none =>
      (dlEvents idx (download_file (env.dl idx)).1 ++ [.deleteLocal idx],
       some .missing)
    | some sz =>
      if sz ≠ expectedSize then
        (dlEvents idx (download_file (env.dl idx)).1 ++ [.deleteLocal idx],
         some .sizeMismatch)
      else
        match env.upload idx with
        | .err q =>
          (dlEvents idx (download_file (env.dl idx)).1 ++ [.deleteLocal idx],
           some (.upload q))
        | .ok =>
          (dlEvents idx (download_file (env.dl idx)).1 ++
             [.upload idx, .deleteLocal idx],
           none)

/-- The `for index in range(start_index, total_files)` loop.  `fuel` is the
number of indices left (`files.length - idx` at every call), `k` the position
in the flag-read sequence.  Per iteration: read the flag (break on false),
skip oversized files with a cursor advance, otherwise run the per-file body;
on success advance the cursor; on a quota-classified failure notify, sleep
the full RETRY_DELAY, read the flag once more, and go to the *next* index
(the `continue` in the source advances the for-loop variable — despite its
'# Retry same file' comment — and the fall-through path reaches the same
place); on any other failure notify and go to the next index.  Failure paths
never touch the store. -/
def runLoop (env : Env) (sid now : Nat) (files : List FileInfo) :
    Nat → Nat → Nat → Db → List Ev × Db × Nat
  | 0, _, k, db => ([], db, k)
  | fuel + 1, idx, k, db =>
    if env.flags k then
      match files.get? idx with
      | none => ([Ev.flagRead k true], db, k + 1)
      | some f =>
        if Config.MAX_FILE_SIZE < f.size then
          let db1 := update_session_index sid (idx + 1) now db
          let rest := runLoop env sid now files fuel (idx + 1) (k + 1) db1
          (Ev.flagRead k true :: Ev.skip idx :: Ev.advance (idx + 1) :: rest.1,
           rest.2)
        else
          let h := handleFile env idx f.size
          match h.2 with
          | none =>
            let db1 := update_session_index sid (idx + 1) now db
            let rest := runLoop env sid now files fuel (idx + 1) (k + 1) db1
            (Ev.flagRead k true :: h.1 ++ Ev.advance (idx + 1) :: rest.1,
             rest.2)
          | some e =>
            if e.quotaClassified then
              let rest := runLoop env sid now files fuel (idx + 1) (k + 2) db
              (Ev.flagRead k true :: h.1 ++
                 Ev.quotaNotify idx :: Ev.backoffSleep Config.RETRY_DELAY ::
                 Ev.flagRead (k + 1) (env.flags (k + 1)) :: rest.1,
               rest.2)
            else
              let rest := runLoop env sid now files fuel (idx + 1) (k + 1) db
              (Ev.flagRead k true :: h.1 ++ Ev.failNotify idx :: rest.1,
               rest.2)
    else
      ([Ev.flagRead k false, Ev.cancelledNotify], db, k + 1)

/-- How a run ends. -/
inductive RunOutcome
  | fetchFailed
  | emptyFolder
  | dbError
  | completed
  | cancelled
deriving DecidableEq, Repr

/-- The dict-to-file view used when resuming from session_files rows. -/
def fileInfoOfRow (fr : FileRow) : FileInfo :=
  ⟨fr.fileHandle, fr.fileName, fr.fileSize⟩

/-- The common tail of process_mega_folder: run the loop from the cursor,
then — one more flag read — either complete the session (a storage failure
there is swallowed by the outer except) or leave it as the cancel path does. -/
def runSession (env : Env) (sid now startIdx : Nat) (files : List FileInfo)
    (db : Db) : List Ev × Db × RunOutcome :=
  let r := runLoop env sid now files (files.length - startIdx) startIdx 0 db
  if env.flags r.2.2 then
    match complete_session sid now r.2.1 with
    | .ok db2 =>
      (r.1 ++ [Ev.flagRead r.2.2 true, Ev.completeNotify], db2, .completed)
    | .error _ => (r.1 ++ [Ev.flagRead r.2.2 true], r.2.1, .dbError)
  else (r.1 ++ [Ev.flagRead r.2.2 false], r.2.1, .cancelled)

/-- The fetch-then-create path taken when no matching active session exists:
a listing failure or an empty folder ends the run without touching the
store; otherwise create_session runs (its failure aborts the run) and the
loop starts at cursor 0 over the freshly listed files. -/
def freshRun (env : Env) (user : Nat) (link : String) (now : Nat) (db : Db) :
    List Ev × Db × RunOutcome :=
  match env.listFolder with
  | .error _ => ([], db, .fetchFailed)
  | .ok files =>
    if files.isEmpty then ([], db, .emptyFolder)
    else
      match create_session user link files now db with
      | .error _ => ([], db, .dbError)
      | .ok (sid, db1) => runSession env sid now 0 files db1

/-- handlers/download.process_mega_folder: resume when the user's active
session matches the requested link (cursor and file list from the store),
else fetch and create. -/
def process_mega_folder (env : Env) (user : Nat) (link : String) (now : Nat)
    (db : Db) : List Ev × Db × RunOutcome :=
  match get_session user db with
  | some s =>
    if s.folderLink == link then
      runSession env s.id now s.currentIndex
        ((get_session_files s.id db).map fileInfoOfRow) db
    else freshRun env user link now db
  | none => freshRun env user link now db

/-- What an entry point does with an update. -/
inductive EntryResult
  | rejectedActive
  | usageError
  | invalidLink
  | hint
  | ran (outcome : RunOutcome)
deriving DecidableEq, Repr

/-- handlers/download.download_command: reject immediately when
active_downloads holds true for the user (`active`), then demand an
argument, validate it, and only then start process_mega_folder. -/
def download_command (active : Bool) (args : List String) (env : Env)
    (user now : Nat) (db : Db) : EntryResult × List Ev × Db :=
  if active then (.rejectedActive, [], db)
  else
    match args with
    | [] => (.usageError, [], db)
    | link :: _ =>
      if is_valid_mega_link link then
        let r := process_mega_folder env user link now db
        (.ran r.2.2, r.1, r.2.1)
      else (.invalidLink, [], db)

/-- Python str.strip() on the incoming message text (whitespace at both
ends; modelled over the character list). -/
def pyStrip (s : String) : String :=
  ⟨((s.data.dropWhile Char.isWhitespace).reverse.dropWhile
      Char.isWhitespace).reverse⟩

/-- main.handle_mega_link: validates the stripped message text and starts
process_mega_folder directly.  The source performs NO active_downloads
check; the `active` argument is accepted (it is the same global the other
entry point reads) and ignored, faithfully to the source. -/
def handle_mega_link (_active : Bool) (text : String) (env : Env)
    (user now : Nat) (db : Db) : EntryResult × List Ev × Db :=
  if is_valid_mega_link (pyStrip text) then
    let r := process_mega_folder env user (pyStrip text) now db
    (.ran r.2.2, r.1, r.2.1)
  else (.hint, [], db)

/-! ### Concrete fixtures for the pipeline claims -/

/-- A second file-list entry. -/
def fY : FileInfo := ⟨"h2", "pic.png", 7⟩

/-- Environment for the unguarded-entry-point run: the listing yields one
file and the very first flag read already returns false (the other run owns
the flag), so the second run cancels out immediately — but only after
create_session has already mutated the store. -/
def envC1 : Env :=
  ⟨.ok [fX], fun _ _ => .ok, fun _ => some 5, fun _ => .ok, fun _ => false⟩

/-- Environment for the per-file-failure run: file 0 fails its first
download attempt non-retryably, file 1 downloads (exact size) and uploads
fine; the flag stays true throughout. -/
def envC2 : Env :=
  ⟨.ok [fX, fY],
   fun idx _ => if idx = 0 then .other else .ok,
   fun idx => if idx = 0 then none else some 7,
   fun _ => .ok,
   fun _ => true⟩

/-- Environment for the cancellation-during-backoff run: every attempt at
file 0 hits the quota, and the flag turns false between read 0 (top of the
loop) and read 1 (right after the handler backoff sleep). -/
def envC5 : Env :=
  ⟨.ok [fX], fun _ _ => .quota, fun _ => some 5, fun _ => .ok,
   fun j => j == 0⟩

/-- A store holding a resumable session for user 7 over three files with
cursor 1 (file 0 already completed by an earlier run). -/
def dbC3 : Db :=
  ⟨[⟨1, 7, "A", 1, .downloading, 0, 0⟩],
   [⟨1, 0, "h1", "a.txt", 5, .completed⟩,
    ⟨1, 1, "h2", "b.txt", 6, .pending⟩,
    ⟨1, 2, "h3", "c.txt", 7, .pending⟩], 2⟩

/-- Environment for the resume run over dbC3: every download and upload
succeeds with exact sizes and the flag stays true. -/
def envC3 : Env :=
  ⟨.ok [], fun _ _ => .ok,
   fun idx => if idx = 0 then some 5 else if idx = 1 then some 6 else some 7,
   fun _ => .ok, fun _ => true⟩

/-- The store left behind by the unguarded second run of envC1 over dbA:
the first run's session got cancelled and a new session was created even
though the user's flag was set. -/
def dbC1after : Db :=
  ⟨[⟨1, 7, "A", 0, .cancelled, 0, 5⟩,
    ⟨2, 7, "https://mega.nz/folder/ZZ#KK", 0, .downloading, 5, 5⟩],
   [⟨1, 0, "h1", "doc.txt", 5, .pending⟩,
    ⟨2, 0, "h1", "doc.txt", 5, .pending⟩], 3⟩

/-- The index a pipeline event refers to, if any. -/
def evIdx : Ev → Option Nat
  | .skip idx => some idx
  | .dlAttempt idx _ => some idx
  | .upload idx => some idx
  | .deleteLocal idx => some idx
  | .quotaNotify idx => some idx
  | .failNotify idx => some idx
  | _ => none

/-! ### Helper lemmas -/

/-- A filter whose members all share one key of a duplicate-free key list
has at most one element. -/
theorem filter_length_le_one {α β : Type} [DecidableEq β] (key : α → β)
    (p : α → Bool) (b : β) :
    ∀ l : List α, (l.map key).Nodup → (∀ x ∈ l, p x = true → key x = b) →
      (l.filter p).length ≤ 1
  | [], _, _ => by simp
  | a :: l, hnd, hall => by
    rw [List.map_cons, List.nodup_cons] at hnd
    by_cases hpa : p a = true
    · rw [List.filter_cons_of_pos hpa]
      have hfl : l.filter p = [] := by
        rw [List.filter_eq_nil_iff]
        intro x hx hpx
        have hb : key x = b := hall x (List.mem_cons_of_mem _ hx) hpx
        have hba : key a = b := hall a (List.mem_cons_self _ _) hpa
        exact hnd.1 ((hba.trans hb.symm) ▸ List.mem_map_of_mem key hx)
      simp [hfl]
    · rw [List.filter_cons_of_neg (by simpa using hpa)]
      exact filter_length_le_one key p b l hnd.2
        (fun x hx => hall x (List.mem_cons_of_mem _ hx))

/-- Rewriting-maps that keep (user_id, status) keep the UNIQUE constraint. -/
theorem uniqueOk_map {l : List SessionRow} {g : SessionRow → SessionRow}
    (hg : ∀ r, sessionKey (g r) = sessionKey r) (h : uniqueOk l) :
    uniqueOk (l.map g) := by
  unfold uniqueOk at *
  rw [List.map_map]
  have hcomp : sessionKey ∘ g = sessionKey := funext hg
  rw [hcomp]
  exact h

/-- Shape of a successful cancelOldStmt. -/
theorem cancelOldStmt_ok {u now : Nat} {db db1 : Db}
    (h : cancelOldStmt u now db = .ok db1) :
    db1.sessions = cancelOldSessions u now db.sessions ∧
      db1.files = db.files ∧ db1.nextSessionId = db.nextSessionId := by
  unfold cancelOldStmt at h
  split at h
  · injection h with h
    subst h
    exact ⟨rfl, rfl, rfl⟩
  · exact absurd h (by simp)

/-- Shape of a successful insertSessionStmt. -/
theorem insertSessionStmt_ok {u now sid : Nat} {link : String} {db db2 : Db}
    (h : insertSessionStmt u link now db = .ok (sid, db2)) :
    sid = db.nextSessionId ∧
      db2.sessions = db.sessions ++ [newSessionRow u link now db.nextSessionId] ∧
      db2.files = db.files ∧ db2.nextSessionId = db.nextSessionId + 1 ∧
      uniqueOk db2.sessions := by
  unfold insertSessionStmt at h
  split at h
  · rename_i hu
    injection h with h
    injection h with h1 h2
    subst h1
    subst h2
    exact ⟨rfl, rfl, rfl, rfl, hu⟩
  · exact absurd h (by simp)

/-- Shape of a successful create_session: old actives of the user are
cancelled, the fresh 'downloading' session (id = the AUTOINCREMENT counter,
cursor 0) is appended, the file list is bulk-inserted at 'pending', and the
UNIQUE constraint holds afterwards. -/
theorem create_session_ok {db db' : Db} {u now sid : Nat} {link : String}
    {files : List FileInfo}
    (h : create_session u link files now db = .ok (sid, db')) :
    sid = db.nextSessionId ∧
      db'.sessions = cancelOldSessions u now db.sessions ++
        [newSessionRow u link now db.nextSessionId] ∧
      db'.files = db.files ++ files.mapIdx (fun i f =>
        { sessionId := sid, fileIndex := i, fileHandle := f.handle,
          fileName := f.name, fileSize := f.size, status := .pending }) ∧
      uniqueOk db'.sessions := by
  unfold create_session at h
  split at h
  · exact absurd h (by simp)
  · rename_i db1 hco
    split at h
    · exact absurd h (by simp)
    · rename_i sid2 db2 hins
      injection h with h
      injection h with h1 h2
      obtain ⟨hco1, hco2, hco3⟩ := cancelOldStmt_ok hco
      obtain ⟨hi1, hi2, hi3, hi4, hi5⟩ := insertSessionStmt_ok hins
      subst h1
      subst h2
      refine ⟨hi1.trans hco3, ?_, ?_, ?_⟩
      · show db2.sessions = _
        rw [hi2, hco1, hco3]
      · show db2.files ++ _ = _
        rw [hi3, hco2]
      · exact hi5

/-- A successful create_session preserves the store invariant. -/
theorem inv_create {db db' : Db} {u now sid : Nat} {link : String}
    {files : List FileInfo} (hnp : ∀ r ∈ db.sessions, r.status ≠ .pending)
    (h : create_session u link files now db = .ok (sid, db')) : Inv db' := by
  obtain ⟨_, hsess, _, huniq⟩ := create_session_ok h
  refine ⟨huniq, ?_⟩
  intro r hr
  rw [hsess] at hr
  rcases List.mem_append.mp hr with hr | hr
  · obtain ⟨r0, hr0, rfl⟩ := List.mem_map.mp hr
    by_cases hc : (r0.userId == u && isActive r0.status) = true
    · simp only [hc, if_true]
      intro hcon
      exact SessionStatus.noConfusion hcon
    · simp only [hc, if_false]
      exact hnp r0 hr0
  · rw [List.mem_singleton.mp hr]
    intro hcon
    exact SessionStatus.noConfusion hcon

/-- update_session_index preserves the store invariant. -/
theorem inv_advance {db : Db} (sid n now : Nat) (h : Inv db) :
    Inv (update_session_index sid n now db) := by
  obtain ⟨hu, hnp⟩ := h
  constructor
  · exact uniqueOk_map (fun r => by
      unfold sessionKey
      split <;> rfl) hu
  · intro r hr
    obtain ⟨r0, hr0, rfl⟩ := List.mem_map.mp hr
    split
    · exact hnp r0 hr0
    · exact hnp r0 hr0

/-- complete_session preserves the store invariant. -/
theorem inv_complete {db db' : Db} {sid now : Nat}
    (hok : complete_session sid now db = .ok db') (h : Inv db) : Inv db' := by
  obtain ⟨_, hnp⟩ := h
  unfold complete_session at hok
  split at hok
  · rename_i hu'
    injection hok with hok
    subst hok
    refine ⟨hu', ?_⟩
    intro r hr
    obtain ⟨r0, hr0, rfl⟩ := List.mem_map.mp hr
    split
    · intro hcon
      exact SessionStatus.noConfusion hcon
    · exact hnp r0 hr0
  · exact absurd hok (by simp)

/-- cancel_session preserves the store invariant. -/
theorem inv_cancel {db db' : Db} {sid now : Nat}
    (hok : cancel_session sid now db = .ok db') (h : Inv db) : Inv db' := by
  obtain ⟨_, hnp⟩ := h
  unfold cancel_session at hok
  split at hok
  · rename_i hu'
    injection hok with hok
    subst hok
    refine ⟨hu', ?_⟩
    intro r hr
    obtain ⟨r0, hr0, rfl⟩ := List.mem_map.mp hr
    split
    · intro hcon
      exact SessionStatus.noConfusion hcon
    · exact hnp r0 hr0
  · exact absurd hok (by simp)

/-- cleanup_old_sessions preserves the store invariant. -/
theorem inv_cleanup {db : Db} (cutoff : Nat) (h : Inv db) :
    Inv (cleanup_old_sessions cutoff db) := by
  obtain ⟨hu, hnp⟩ := h
  constructor
  · exact List.Nodup.sublist (List.Sublist.map sessionKey (List.filter_sublist _)) hu
  · intro r hr
    exact hnp r (List.mem_of_mem_filter hr)

/-- Every reachable store satisfies the invariant. -/
theorem reachable_inv : ∀ {db : Db}, Reachable db → Inv db := by
  intro db h
  induction h with
  | empty =>
    exact ⟨by simp [uniqueOk, Db.empty], by simp [Db.empty]⟩
  | create _ hok ih => exact inv_create ih.2 hok
  | advance sid n now _ ih => exact inv_advance sid n now ih
  | complete _ hok ih => exact inv_complete hok ih
  | cancel _ hok ih => exact inv_cancel hok ih
  | cleanup cutoff _ ih => exact inv_cleanup cutoff ih

/-! ### Claim theorems -/

/-- C6: in every reachable store each user has at most one session with
status in {Pending, Downloading}; and a successful create_session leaves the
user with exactly the fresh session active — status Downloading, cursor 0,
id the one returned — every previously active session of that user having
been marked Cancelled.  (All-or-nothing atomicity is structural in the
model: create_session either returns the fully updated store or an error
with the store untouched, matching the single commit at the end of the
method and the fact that only its first statement can fail.) -/
theorem single_active_session :
    (∀ db : Db, Reachable db → ∀ u : Nat,
        (activeSessionsFor u db).length ≤ 1) ∧
    (∀ (db db' : Db) (u now sid : Nat) (link : String)
        (files : List FileInfo),
        create_session u link files now db = .ok (sid, db') →
        activeSessionsFor u db' = [newSessionRow u link now sid] ∧
        (newSessionRow u link now sid).status = .downloading ∧
        (newSessionRow u link now sid).currentIndex = 0 ∧
        (∀ r ∈ db.sessions, r.userId = u → isActive r.status = true →
          ∃ r' ∈ db'.sessions, r'.id = r.id ∧ r'.status = .cancelled)) := by
  constructor
  · intro db hr u
    obtain ⟨hu, hnp⟩ := reachable_inv hr
    apply filter_length_le_one sessionKey _ (u, SessionStatus.downloading) _ hu
    intro x hx hpx
    rw [Bool.and_eq_true] at hpx
    have hid : x.userId = u := by simpa using hpx.1
    have hact := hpx.2
    have hnpx := hnp x hx
    have hdown : x.status = .downloading := by
      cases hst : x.status
      · exact absurd hst hnpx
      · rfl
      · rw [hst] at hact; exact absurd hact (by decide)
      · rw [hst] at hact; exact absurd hact (by decide)
    unfold sessionKey
    rw [hid, hdown]
  · intro db db' u now sid link files h
    obtain ⟨hsid, hsess, _, _⟩ := create_session_ok h
    subst hsid
    refine ⟨?_, rfl, rfl, ?_⟩
    · unfold activeSessionsFor
      rw [hsess, List.filter_append]
      have h1 : (cancelOldSessions u now db.sessions).filter
          (fun r => r.userId == u && isActive r.status) = [] := by
        rw [List.filter_eq_nil_iff]
        intro x hx
        obtain ⟨r0, _, rfl⟩ := List.mem_map.mp hx
        by_cases hc : (r0.userId == u && isActive r0.status) = true
        · simp only [hc, if_true]
          simp [isActive]
        · simp only [hc, if_false]
          simp only [Bool.not_eq_true]
          exact Bool.eq_false_iff.mpr (fun hcon => absurd hcon (by simp [hc]))
      rw [h1]
      simp [newSessionRow, isActive]
    · intro r hr hru hact
      refine ⟨{ r with status := .cancelled, updatedAt := now }, ?_, rfl, rfl⟩
      rw [hsess]
      apply List.mem_append_left
      have heq : (fun r : SessionRow =>
          if r.userId == u && isActive r.status then
            { r with status := SessionStatus.cancelled, updatedAt := now }
          else r) r = { r with status := .cancelled, updatedAt := now } := by
        have hc : (r.userId == u && isActive r.status) = true := by
          rw [Bool.and_eq_true]
          exact ⟨by simp [hru], hact⟩
        simp only [hc, if_true]
      rw [← heq]
      exact List.mem_map_of_mem _ hr

/-- C6 witness: the invariant bound evaluated at the reachable store dbA and
the create postcondition evaluated at the second create_session call. -/
theorem single_active_session_witness :
    (activeSessionsFor 7 dbA).length ≤ 1 ∧
      activeSessionsFor 7 dbB = [newSessionRow 7 "B" 1 2] :=
  ⟨single_active_session.1 dbA
      (Reachable.create Reachable.empty
        (rfl : create_session 7 "A" [fX] 0 Db.empty = .ok (1, dbA))) 7,
   (single_active_session.2 dbA dbB 7 1 2 "B" [fX]
      (rfl : create_session 7 "B" [fX] 1 dbA = .ok (2, dbB))).1⟩

/-- C10: the UNIQUE(user_id, status) constraint caps every (user, status)
pair at one stored row in every reachable store; consequently a user's third
download request fails — with one cancelled and one downloading session in
the store, the cancel-old UPDATE of create_session would produce a second
(user, 'cancelled') row, the statement aborts with the uniqueness error, and
no new session is created (create_session returns the error before any
insert). -/
theorem unique_user_status_blocks_create :
    (∀ db : Db, Reachable db → ∀ (u : Nat) (st : SessionStatus),
        (db.sessions.filter fun r => r.userId == u && r.status == st).length
          ≤ 1) ∧
    create_session 7 "A" [fX] 0 Db.empty = .ok (1, dbA) ∧
    create_session 7 "B" [fX] 1 dbA = .ok (2, dbB) ∧
    create_session 7 "C" [fX] 2 dbB = .error .uniqueViolation := by
  refine ⟨?_, rfl, rfl, rfl⟩
  intro db hr u st
  obtain ⟨hu, _⟩ := reachable_inv hr
  apply filter_length_le_one sessionKey _ (u, st) _ hu
  intro x _ hpx
  rw [Bool.and_eq_true] at hpx
  unfold sessionKey
  rw [show x.userId = u by simpa using hpx.1,
      show x.status = st by simpa using hpx.2]

/-- C10 witness: the per-(user, status) bound evaluated at the reachable
store dbB for the pair (7, cancelled). -/
theorem unique_user_status_blocks_create_witness :
    (dbB.sessions.filter fun r =>
        r.userId == 7 && r.status == SessionStatus.cancelled).length ≤ 1 :=
  unique_user_status_blocks_create.1 dbB
    (Reachable.create
      (Reachable.create Reachable.empty
        (rfl : create_session 7 "A" [fX] 0 Db.empty = .ok (1, dbA)))
      (rfl : create_session 7 "B" [fX] 1 dbA = .ok (2, dbB)))
    7 .cancelled

/-- C7: update_session_index (AdvanceCursor) is idempotent — a second call
with the same index changes nothing but updated_at (file rows and
timestamp-erased session rows are identical, so ListFiles results are
unchanged) — and each call sets current_index = n on the addressed session,
completes exactly the files of that session with file_index < n, and leaves
every other file row untouched. -/
theorem advance_cursor_idempotent (db : Db) (sid n now now2 : Nat) :
    (update_session_index sid n now2 (update_session_index sid n now db)).files
        = (update_session_index sid n now db).files ∧
    (update_session_index sid n now2
          (update_session_index sid n now db)).sessions.map SessionRow.eraseTs
        = (update_session_index sid n now db).sessions.map SessionRow.eraseTs ∧
    (∀ sid' : Nat,
        get_session_files sid'
            (update_session_index sid n now2 (update_session_index sid n now db))
          = get_session_files sid' (update_session_index sid n now db)) ∧
    (∀ r ∈ (update_session_index sid n now db).sessions,
        r.id = sid → r.currentIndex = n) ∧
    (∀ f ∈ (update_session_index sid n now db).files,
        f.sessionId = sid → f.fileIndex < n → f.status = .completed) ∧
    (∀ (i : Nat) (f : FileRow), db.files.get? i = some f →
        ¬(f.sessionId = sid ∧ f.fileIndex < n) →
        (update_session_index sid n now db).files.get? i = some f) := by
  have hfiles :
      (update_session_index sid n now2
          (update_session_index sid n now db)).files
        = (update_session_index sid n now db).files := by
    simp only [update_session_index]
    rw [List.map_map]
    apply List.map_congr_left
    intro f _
    by_cases hc : (f.sessionId == sid && decide (f.fileIndex < n)) = true
    · simp [Function.comp, hc]
    · simp [Function.comp, hc]
  refine ⟨hfiles, ?_, ?_, ?_, ?_, ?_⟩
  · simp only [update_session_index, List.map_map]
    apply List.map_congr_left
    intro r _
    by_cases hc : (r.id == sid) = true
    · simp [Function.comp, hc, SessionRow.eraseTs]
    · simp [Function.comp, hc]
  · intro sid'
    unfold get_session_files
    rw [hfiles]
  · intro r hr hid
    simp only [update_session_index] at hr
    obtain ⟨r0, _, rfl⟩ := List.mem_map.mp hr
    by_cases hc : (r0.id == sid) = true
    · simp [hc]
    · rw [Bool.not_eq_true] at hc
      simp [hc] at hid
      simp [hid] at hc
  · intro f hf hsid hlt
    simp only [update_session_index] at hf
    obtain ⟨f0, _, rfl⟩ := List.mem_map.mp hf
    by_cases hc : (f0.sessionId == sid && decide (f0.fileIndex < n)) = true
    · simp [hc]
    · rw [Bool.not_eq_true] at hc
      simp [hc] at hsid hlt
      simp [hsid, hlt] at hc
  · intro i f hget hout
    simp only [update_session_index]
    rw [List.get?_map, hget]
    have hc : (f.sessionId == sid && decide (f.fileIndex < n)) = false := by
      by_cases h1 : f.sessionId = sid
      · by_cases h2 : f.fileIndex < n
        · exact absurd ⟨h1, h2⟩ hout
        · simp [h2]
      · simp [h1]
    simp [hc]
    intro h1 h2
    exact absurd ⟨h1, h2⟩ hout

/-- C7 witness: the idempotence equalities and the cursor/completion facts
evaluated on the three-file store dbC7 with n = 2. -/
theorem advance_cursor_idempotent_witness :
    (update_session_index 1 2 20 (update_session_index 1 2 10 dbC7)).files
        = (update_session_index 1 2 10 dbC7).files ∧
      get_session_files 1
          (update_session_index 1 2 20 (update_session_index 1 2 10 dbC7))
        = get_session_files 1 (update_session_index 1 2 10 dbC7) ∧
      (⟨1, 7, "A", 2, .downloading, 0, 10⟩ : SessionRow).currentIndex = 2 := by
  have h := advance_cursor_idempotent dbC7 1 2 10 20
  refine ⟨h.1, h.2.2.1 1, ?_⟩
  exact h.2.2.2.1 ⟨1, 7, "A", 2, .downloading, 0, 10⟩ (by decide) rfl

/-- C9: cleanup_old_sessions deletes exactly the terminal sessions whose
updated_at predates the cutoff — the stale downloading session and the
fresh cancelled one survive — but the deleted session's session_files rows
are NOT deleted: db.py never issues `PRAGMA foreign_keys = ON`, SQLite
leaves foreign-key enforcement off by default, and the declared ON DELETE
CASCADE therefore never fires, so the file row of deleted session 1 remains
as an orphan. -/
theorem purge_leaves_orphan_file_rows :
    (cleanup_old_sessions 100 dbC9).sessions =
      [⟨2, 8, "L2", 1, .downloading, 0, 10⟩, ⟨3, 9, "L3", 2, .cancelled, 0, 500⟩] ∧
    (cleanup_old_sessions 100 dbC9).files =
      [⟨1, 0, "h1", "doc.txt", 5, .completed⟩] ∧
    ((cleanup_old_sessions 100 dbC9).sessions.all fun r => r.id != 1)
      = true := by
  refine ⟨rfl, rfl, ?_⟩
  decide

/-- C8: ProgressTracker.update throttles emission — with `t1 = last_update`
(the stamp of the last emitting call, or of Begin), a call at `t2` with
`t2 - t1 < T` returns emit = false and leaves the stamp, while a call with
`t2 - t1 ≥ T` returns emit = true and stamps `last_update = t2` — and the
byte counter, percentage, speed and eta are recomputed by the same formulas
on every call, whatever the emit outcome (each under its source guard:
total > 0, elapsed > 0, speed > 0). -/
theorem progress_observe (T : ℚ) (d : ProgressData) (c : Nat) (t2 : ℚ) :
    (t2 - d.last_update < T →
      (ProgressTracker.update T d c t2).2 = false ∧
      (ProgressTracker.update T d c t2).1.last_update = d.last_update) ∧
    (T ≤ t2 - d.last_update →
      (ProgressTracker.update T d c t2).2 = true ∧
      (ProgressTracker.update T d c t2).1.last_update = t2) ∧
    (ProgressTracker.update T d c t2).1.current = c ∧
    (0 < d.total →
      (ProgressTracker.update T d c t2).1.percentage
        = ((c : ℚ) / (d.total : ℚ)) * 100) ∧
    (0 < t2 - d.start_time →
      (ProgressTracker.update T d c t2).1.speed
        = (c : ℚ) / (t2 - d.start_time)) ∧
    (0 < t2 - d.start_time → 0 < (c : ℚ) / (t2 - d.start_time) →
      (ProgressTracker.update T d c t2).1.eta
        = ratTrunc (((d.total : ℚ) - (c : ℚ))
            / ((c : ℚ) / (t2 - d.start_time)))) := by
  refine ⟨?_, ?_, ?_, ?_, ?_, ?_⟩
  all_goals intros
  all_goals simp only [ProgressTracker.update]
  all_goals split_ifs <;> simp_all <;> linarith

/-- C8 witness: a snapshot opened at time 0 with 100 total bytes, observed
at time 2 (within the 3-second interval): no emission, but the byte counter
and percentage were recomputed. -/
theorem progress_observe_witness :
    (ProgressTracker.update 3 (ProgressTracker.create_session "f" 100 0)
        50 2).2 = false ∧
    (ProgressTracker.update 3 (ProgressTracker.create_session "f" 100 0)
        50 2).1.current = 50 ∧
    (ProgressTracker.update 3 (ProgressTracker.create_session "f" 100 0)
        50 2).1.percentage = 50 := by
  have h := progress_observe 3 (ProgressTracker.create_session "f" 100 0) 50 2
  refine ⟨(h.1 (by norm_num [ProgressTracker.create_session])).1, h.2.2.1, ?_⟩
  have hp := h.2.2.2.1 (by norm_num [ProgressTracker.create_session])
  rw [hp]
  norm_num [ProgressTracker.create_session]

/-- C4 counterexample: with every attempt failing on quota, the sleep after
the first (0-indexed i = 0) failure is 4 seconds — tenacity's
wait_exponential floor — whereas the claimed formula min(max_delay,
base · 2^i) gives 1 second at the code's multiplier 1 and cap 60. -/
theorem retry_backoff_counterexample :
    (download_file fun _ => .quota).1.get? 1 = some (.sleep 4) ∧
      min 60 (1 * 2 ^ 0) = 1 ∧
      (((download_file fun _ => .quota).1.get? 1)
        == some (.sleep (min 60 (1 * 2 ^ 0)))) = false := by decide

/-- C4 amended: download_file attempts the file `numAttempts dl` times
(consecutively, at most MAX_RETRIES = 5); after the 0-indexed quota failure
`i` it sleeps exactly `max(4, min(60, 2^(i+1)))` seconds before attempt
`i+1` (tenacity wait_exponential with multiplier 1, min 4, max 60 at 1-based
attempt number `i+1`); every attempt before the last one failed on quota
(any other failure propagates immediately, unretried); and the surfaced
result is determined by the last attempt — ok, MegaDownloadError, or, after
MAX_RETRIES quota failures, a RetryError wrapping the last quota failure,
with no further attempt and no further sleep. -/
theorem retry_backoff_amended (dl : Nat → AttemptResult) :
    (download_file dl).1 =
      (List.range (numAttempts dl)).flatMap (fun i =>
        RetryEvent.attempt i ::
          (if i + 1 < numAttempts dl
           then [RetryEvent.sleep (max 4 (min 60 (2 ^ (i + 1))))] else [])) ∧
    ((download_file dl).2 =
      match dl (numAttempts dl - 1) with
      | .ok => DlResult.ok
      | .other => DlResult.megaError
      | .quota => DlResult.retryError .quota) ∧
    ((List.range (numAttempts dl - 1)).all fun i => dl i == .quota) = true ∧
    0 < numAttempts dl ∧ numAttempts dl ≤ Config.MAX_RETRIES := by
  have hr5 : List.range 5 = [0, 1, 2, 3, 4] := rfl
  rcases h0 : dl 0 with _ | _ | _
  · refine ⟨?_, ?_, ?_, ?_, ?_⟩ <;>
      simp [download_file, tenacityLoop, numAttempts, tenacityWait,
        Config.MAX_RETRIES, hr5, h0] <;>
        first
        | decide
        | (intro x hx; interval_cases x <;> assumption)
  · rcases h1 : dl 1 with _ | _ | _
    · refine ⟨?_, ?_, ?_, ?_, ?_⟩ <;>
        simp [download_file, tenacityLoop, numAttempts, tenacityWait,
          Config.MAX_RETRIES, hr5, h0, h1] <;>
        first
        | decide
        | (intro x hx; interval_cases x <;> assumption)
    · rcases h2 : dl 2 with _ | _ | _
      · refine ⟨?_, ?_, ?_, ?_, ?_⟩ <;>
          simp [download_file, tenacityLoop, numAttempts, tenacityWait,
            Config.MAX_RETRIES, hr5, h0, h1, h2] <;>
        first
        | decide
        | (intro x hx; interval_cases x <;> assumption)
      · rcases h3 : dl 3 with _ | _ | _
        · refine ⟨?_, ?_, ?_, ?_, ?_⟩ <;>
            simp [download_file, tenacityLoop, numAttempts, tenacityWait,
              Config.MAX_RETRIES, hr5, h0, h1, h2, h3] <;>
        first
        | decide
        | (intro x hx; interval_cases x <;> assumption)
        · rcases h4 : dl 4 with _ | _ | _ <;>
            refine ⟨?_, ?_, ?_, ?_, ?_⟩ <;>
            simp [download_file, tenacityLoop, numAttempts, tenacityWait,
              Config.MAX_RETRIES, hr5, h0, h1, h2, h3, h4] <;>
        first
        | decide
        | (intro x hx; interval_cases x <;> assumption)
        · refine ⟨?_, ?_, ?_, ?_, ?_⟩ <;>
            simp [download_file, tenacityLoop, numAttempts, tenacityWait,
              Config.MAX_RETRIES, hr5, h0, h1, h2, h3] <;>
        first
        | decide
        | (intro x hx; interval_cases x <;> assumption)
      · refine ⟨?_, ?_, ?_, ?_, ?_⟩ <;>
          simp [download_file, tenacityLoop, numAttempts, tenacityWait,
            Config.MAX_RETRIES, hr5, h0, h1, h2] <;>
        first
        | decide
        | (intro x hx; interval_cases x <;> assumption)
    · refine ⟨?_, ?_, ?_, ?_, ?_⟩ <;>
        simp [download_file, tenacityLoop, numAttempts, tenacityWait,
          Config.MAX_RETRIES, hr5, h0, h1] <;>
        first
        | decide
        | (intro x hx; interval_cases x <;> assumption)
  · refine ⟨?_, ?_, ?_, ?_, ?_⟩ <;>
      simp [download_file, tenacityLoop, numAttempts, tenacityWait,
        Config.MAX_RETRIES, hr5, h0] <;>
        first
        | decide
        | (intro x hx; interval_cases x <;> assumption)

/-- C4 witness for the amended statement: the all-quota oracle yields the
full five-attempt trace with sleeps 4, 4, 8, 16 and the RetryError. -/
theorem retry_backoff_amended_witness :
    (download_file fun _ => .quota).1 =
      [.attempt 0, .sleep 4, .attempt 1, .sleep 4, .attempt 2, .sleep 8,
       .attempt 3, .sleep 16, .attempt 4] ∧
    (download_file fun _ => .quota).2 = .retryError .quota := by
  have h := retry_backoff_amended (fun _ => .quota)
  exact ⟨by rw [h.1]; decide, by rw [h.2.1]⟩

/-- Every event of the per-file body is a download attempt, a retry sleep,
the upload, or the local delete — all tagged with that file's index. -/
theorem handleFile_mem (env : Env) (idx sz : Nat) (e : Ev)
    (he : e ∈ (handleFile env idx sz).1) :
    (∃ i, e = Ev.dlAttempt idx i) ∨ (∃ s, e = Ev.retrySleep s) ∨
      e = Ev.upload idx ∨ e = Ev.deleteLocal idx := by
  have hdl : ∀ e', e' ∈ dlEvents idx (download_file (env.dl idx)).1 →
      (∃ i, e' = Ev.dlAttempt idx i) ∨ (∃ s, e' = Ev.retrySleep s) := by
    intro e' he'
    obtain ⟨re, _, rfl⟩ := List.mem_map.mp he'
    cases re
    · exact Or.inl ⟨_, rfl⟩
    · exact Or.inr ⟨_, rfl⟩
  unfold handleFile at he
  rcases hd : (download_file (env.dl idx)).2 with _ | _ | la <;>
      rw [hd] at he <;> dsimp only at he
  case ok =>
    rcases ha : env.actualSize idx with _ | sz' <;>
        rw [ha] at he <;> dsimp only at he
    case some =>
      by_cases hsz : sz' ≠ sz
      · rw [if_pos hsz] at he
        rcases List.mem_append.mp he with h | h
        · rcases hdl e h with h' | h'
          · exact Or.inl h'
          · exact Or.inr (Or.inl h')
        · simp at h
          subst h
          exact Or.inr (Or.inr (Or.inr rfl))
      · rw [if_neg hsz] at he
        rcases hu : env.upload idx with _ | q <;> rw [hu] at he <;>
            dsimp only at he
        · rcases List.mem_append.mp he with h | h
          · rcases hdl e h with h' | h'
            · exact Or.inl h'
            · exact Or.inr (Or.inl h')
          · simp at h
            rcases h with h | h <;> subst h
            · exact Or.inr (Or.inr (Or.inl rfl))
            · exact Or.inr (Or.inr (Or.inr rfl))
        · rcases List.mem_append.mp he with h | h
          · rcases hdl e h with h' | h'
            · exact Or.inl h'
            · exact Or.inr (Or.inl h')
          · simp at h
            subst h
            exact Or.inr (Or.inr (Or.inr rfl))
    case none =>
      rcases List.mem_append.mp he with h | h
      · rcases hdl e h with h' | h'
        · exact Or.inl h'
        · exact Or.inr (Or.inl h')
      · simp at h
        subst h
        exact Or.inr (Or.inr (Or.inr rfl))
  case megaError =>
    rcases List.mem_append.mp he with h | h
    · rcases hdl e h with h' | h'
      · exact Or.inl h'
      · exact Or.inr (Or.inl h')
    · simp at h
      subst h
      exact Or.inr (Or.inr (Or.inr rfl))
  case retryError =>
    rcases List.mem_append.mp he with h | h
    · rcases hdl e h with h' | h'
      · exact Or.inl h'
      · exact Or.inr (Or.inl h')
    · simp at h
      subst h
      exact Or.inr (Or.inr (Or.inr rfl))

/-- The per-file body always begins with the first (0-indexed) download
attempt: tenacity always performs attempt 1. -/
theorem handleFile_attempt0 (env : Env) (idx sz : Nat) :
    Ev.dlAttempt idx 0 ∈ (handleFile env idx sz).1 := by
  obtain ⟨t, ht⟩ : ∃ t, (download_file (env.dl idx)).1
      = RetryEvent.attempt 0 :: t := by
    rcases h : env.dl idx 0 <;>
      simp [download_file, Config.MAX_RETRIES, tenacityLoop, h]
  have hmem : Ev.dlAttempt idx 0 ∈ dlEvents idx (download_file (env.dl idx)).1 := by
    rw [ht, dlEvents]
    exact List.mem_cons_self _ _
  unfold handleFile
  rcases hd : (download_file (env.dl idx)).2 with _ | _ | la <;> dsimp only
  case ok =>
    rcases ha : env.actualSize idx with _ | sz' <;> dsimp only
    case some =>
      by_cases hsz : sz' ≠ sz
      · rw [if_pos hsz]
        exact List.mem_append_left _ hmem
      · rw [if_neg hsz]
        rcases hu : env.upload idx with _ | q <;> dsimp only <;>
          exact List.mem_append_left _ hmem
    case none => exact List.mem_append_left _ hmem
  case megaError => exact List.mem_append_left _ hmem
  case retryError => exact List.mem_append_left _ hmem

/-- The index tag of every per-file-body event is the file's own index. -/
theorem handleFile_evIdx (env : Env) (idx sz : Nat) (e : Ev)
    (he : e ∈ (handleFile env idx sz).1) (j : Nat) (hj : evIdx e = some j) :
    j = idx := by
  rcases handleFile_mem env idx sz e he with ⟨i, rfl⟩ | ⟨s, rfl⟩ | rfl | rfl <;>
    simp [evIdx] at hj <;> omega

/-- The per-file body never advances the cursor and never emits the
handler-level backoff sleep. -/
theorem handleFile_no_advance (env : Env) (idx sz : Nat) :
    (∀ n, Ev.advance n ∉ (handleFile env idx sz).1) ∧
      (∀ s, Ev.backoffSleep s ∉ (handleFile env idx sz).1) := by
  constructor
  · intro n hmem
    rcases handleFile_mem env idx sz _ hmem with ⟨i, h⟩ | ⟨s, h⟩ | h | h <;>
      exact Ev.noConfusion h
  · intro s hmem
    rcases handleFile_mem env idx sz _ hmem with ⟨i, h⟩ | ⟨s', h⟩ | h | h <;>
      exact Ev.noConfusion h

/-- Every index-tagged event the loop emits from position `idx` with `fuel`
indices left concerns an index in [idx, idx + fuel). -/
theorem runLoop_evIdx_bounds (env : Env) (sid now : Nat)
    (files : List FileInfo) :
    ∀ (fuel idx k : Nat) (db : Db),
      ∀ e ∈ (runLoop env sid now files fuel idx k db).1,
      ∀ j, evIdx e = some j → idx ≤ j ∧ j < idx + fuel := by
  intro fuel
  induction fuel with
  | zero =>
    intro idx k db e he j hj
    rw [runLoop] at he
    simp at he
  | succ n ih =>
    intro idx k db e he j hj
    rw [runLoop] at he
    by_cases hf : env.flags k = true
    · rw [if_pos hf] at he
      rcases hg : files.get? idx with _ | f <;> rw [hg] at he <;>
          simp only [] at he
      · simp at he
        subst he
        simp [evIdx] at hj
      · by_cases hs : Config.MAX_FILE_SIZE < f.size
        · rw [if_pos hs] at he
          simp only [List.mem_cons] at he
          rcases he with rfl | rfl | rfl | he
          · simp [evIdx] at hj
          · simp [evIdx] at hj
            omega
          · simp [evIdx] at hj
          · have := ih (idx + 1) (k + 1)
              (update_session_index sid (idx + 1) now db) e he j hj
            omega
        · rw [if_neg hs] at he
          rcases hh : (handleFile env idx f.size).2 with _ | er <;>
              rw [hh] at he <;> simp only [] at he
          · simp only [List.mem_cons, List.mem_append] at he
            rcases he with (rfl | he) | (rfl | he)
            · simp [evIdx] at hj
            · have := handleFile_evIdx env idx f.size e he j hj
              omega
            · simp [evIdx] at hj
            · have := ih (idx + 1) (k + 1)
                (update_session_index sid (idx + 1) now db) e he j hj
              omega
          · by_cases hq : er.quotaClassified = true
            · rw [if_pos hq] at he
              simp only [List.mem_cons, List.mem_append] at he
              rcases he with (rfl | he) | (rfl | rfl | rfl | he)
              · simp [evIdx] at hj
              · have := handleFile_evIdx env idx f.size e he j hj
                omega
              · simp [evIdx] at hj
                omega
              · simp [evIdx] at hj
              · simp [evIdx] at hj
              · have := ih (idx + 1) (k + 2) db e he j hj
                omega
            · rw [if_neg hq] at he
              simp only [List.mem_cons, List.mem_append] at he
              rcases he with (rfl | he) | (rfl | he)
              · simp [evIdx] at hj
              · have := handleFile_evIdx env idx f.size e he j hj
                omega
              · simp [evIdx] at hj
                omega
              · have := ih (idx + 1) (k + 1) db e he j hj
                omega
    · rw [if_neg hf] at he
      simp at he
      rcases he with rfl | rfl <;> simp [evIdx] at hj

/-- With the flag always true, every index in [idx, idx + fuel) is reached:
it is either skipped (oversize) or its first download attempt happens. -/
theorem runLoop_touch (env : Env) (sid now : Nat) (files : List FileInfo)
    (hflags : ∀ j, env.flags j = true) :
    ∀ (fuel idx k : Nat) (db : Db) (j : Nat), idx ≤ j → j < idx + fuel →
      idx + fuel ≤ files.length →
      Ev.skip j ∈ (runLoop env sid now files fuel idx k db).1 ∨
        Ev.dlAttempt j 0 ∈ (runLoop env sid now files fuel idx k db).1 := by
  intro fuel
  induction fuel with
  | zero => intro idx k db j h1 h2 _; omega
  | succ n ih =>
    intro idx k db j h1 h2 hlen
    rw [runLoop, if_pos (hflags k)]
    rcases hg : files.get? idx with _ | f
    · rw [List.get?_eq_none] at hg
      omega
    · simp only []
      by_cases hs : Config.MAX_FILE_SIZE < f.size
      · rw [if_pos hs]
        simp only []
        rcases Nat.eq_or_lt_of_le h1 with rfl | hlt
        · left
          simp
        · rcases ih (idx + 1) (k + 1)
              (update_session_index sid (idx + 1) now db) j hlt (by omega)
              (by omega) with h | h
          · left
            simp [h]
          · right
            simp [h]
      · rw [if_neg hs]
        have hmem0 := handleFile_attempt0 env idx f.size
        rcases hh : (handleFile env idx f.size).2 with _ | er <;> simp only []
        · rcases Nat.eq_or_lt_of_le h1 with rfl | hlt
          · right
            exact List.mem_append_left _ (List.mem_cons_of_mem _ hmem0)
          · rcases ih (idx + 1) (k + 1)
                (update_session_index sid (idx + 1) now db) j hlt (by omega)
                (by omega) with h | h
            · left
              exact List.mem_append_right _ (List.mem_cons_of_mem _ h)
            · right
              exact List.mem_append_right _ (List.mem_cons_of_mem _ h)
        · by_cases hq : er.quotaClassified = true
          · rw [if_pos hq]
            rcases Nat.eq_or_lt_of_le h1 with rfl | hlt
            · right
              exact List.mem_append_left _ (List.mem_cons_of_mem _ hmem0)
            · rcases ih (idx + 1) (k + 2) db j hlt (by omega)
                  (by omega) with h | h
              · left
                refine List.mem_append_right _ ?_
                simp [h]
              · right
                refine List.mem_append_right _ ?_
                simp [h]
          · rw [if_neg hq]
            rcases Nat.eq_or_lt_of_le h1 with rfl | hlt
            · right
              exact List.mem_append_left _ (List.mem_cons_of_mem _ hmem0)
            · rcases ih (idx + 1) (k + 1) db j hlt (by omega)
                  (by omega) with h | h
              · left
                refine List.mem_append_right _ ?_
                simp [h]
              · right
                refine List.mem_append_right _ ?_
                simp [h]

/-- Concatenating a constant-c list with a sorted list of elements ≥ c is
sorted. -/
theorem sorted_const_append (c : Nat) :
    ∀ (l1 l2 : List Nat), (∀ x ∈ l1, x = c) → l2.Sorted (· ≤ ·) →
      (∀ x ∈ l2, c ≤ x) → (l1 ++ l2).Sorted (· ≤ ·)
  | [], l2, _, h2, _ => by simpa using h2
  | a :: l1, l2, h1, h2, h3 => by
    rw [List.cons_append, List.sorted_cons]
    refine ⟨?_, sorted_const_append c l1 l2
      (fun x hx => h1 x (List.mem_cons_of_mem _ hx)) h2 h3⟩
    intro b hb
    rcases List.mem_append.mp hb with hb | hb
    · rw [h1 a (List.mem_cons_self _ _), h1 b (List.mem_cons_of_mem _ hb)]
    · rw [h1 a (List.mem_cons_self _ _)]
      exact h3 b hb

/-- The indices of the loop's trace are emitted in ascending order. -/
theorem runLoop_sorted (env : Env) (sid now : Nat) (files : List FileInfo) :
    ∀ (fuel idx k : Nat) (db : Db),
      ((runLoop env sid now files fuel idx k db).1.filterMap evIdx).Sorted
        (· ≤ ·) := by
  intro fuel
  induction fuel with
  | zero =>
    intro idx k db
    rw [runLoop]
    simp
  | succ n ih =>
    intro idx k db
    have hrest : ∀ (k' : Nat) (db' : Db) (x : Nat),
        x ∈ ((runLoop env sid now files n (idx + 1) k' db').1.filterMap evIdx) →
        idx + 1 ≤ x := by
      intro k' db' x hx
      obtain ⟨e, he, hex⟩ := List.mem_filterMap.mp hx
      exact (runLoop_evIdx_bounds env sid now files n (idx + 1) k' db' e he
        x hex).1
    rw [runLoop]
    by_cases hf : env.flags k = true
    · rw [if_pos hf]
      rcases hg : files.get? idx with _ | f
      · simp [evIdx]
      · simp only []
        by_cases hs : Config.MAX_FILE_SIZE < f.size
        · rw [if_pos hs]
          simp only [List.filterMap_cons, evIdx]
          rw [List.sorted_cons]
          exact ⟨fun b hb => by
            have := hrest (k + 1) (update_session_index sid (idx + 1) now db)
              b hb
            omega, ih (idx + 1) (k + 1) _⟩
        · rw [if_neg hs]
          have hblock' : ∀ x ∈ (List.filterMap evIdx
              (handleFile env idx f.size).1), x = idx := by
            intro x hx
            obtain ⟨e, he, hex⟩ := List.mem_filterMap.mp hx
            exact handleFile_evIdx env idx f.size e he x hex
          rcases hh : (handleFile env idx f.size).2 with _ | er <;>
            simp only []
          · simp only [List.filterMap_append, List.filterMap_cons, evIdx]
            apply sorted_const_append idx _ _ hblock'
            · exact ih (idx + 1) (k + 1) _
            · intro x hx
              have := hrest (k + 1)
                (update_session_index sid (idx + 1) now db) x hx
              omega
          · by_cases hq : er.quotaClassified = true
            · rw [if_pos hq]
              simp only [List.filterMap_append, List.filterMap_cons, evIdx]
              apply sorted_const_append idx _ _ hblock'
              · rw [List.sorted_cons]
                refine ⟨fun b hb => ?_, ih (idx + 1) (k + 2) db⟩
                have := hrest (k + 2) db b hb
                omega
              · intro x hx
                simp only [List.mem_cons] at hx
                rcases hx with rfl | hx
                · omega
                · have := hrest (k + 2) db x hx
                  omega
            · rw [if_neg hq]
              simp only [List.filterMap_append, List.filterMap_cons, evIdx]
              apply sorted_const_append idx _ _ hblock'
              · rw [List.sorted_cons]
                refine ⟨fun b hb => ?_, ih (idx + 1) (k + 1) db⟩
                have := hrest (k + 1) db b hb
                omega
              · intro x hx
                simp only [List.mem_cons] at hx
                rcases hx with rfl | hx
                · omega
                · have := hrest (k + 1) db x hx
                  omega
    · rw [if_neg hf]
      simp [evIdx]

/-- Every handler-level backoff sleep the loop emits lasts the full
RETRY_DELAY — no sleep is ever shortened. -/
theorem runLoop_backoff_const (env : Env) (sid now : Nat)
    (files : List FileInfo) :
    ∀ (fuel idx k : Nat) (db : Db) (s : Nat),
      Ev.backoffSleep s ∈ (runLoop env sid now files fuel idx k db).1 →
      s = Config.RETRY_DELAY := by
  intro fuel
  induction fuel with
  | zero =>
    intro idx k db s hs
    rw [runLoop] at hs
    simp at hs
  | succ n ih =>
    intro idx k db s hs
    rw [runLoop] at hs
    by_cases hf : env.flags k = true
    · rw [if_pos hf] at hs
      rcases hg : files.get? idx with _ | f <;> rw [hg] at hs <;>
          simp only [] at hs
      · simp at hs
      · by_cases hsize : Config.MAX_FILE_SIZE < f.size
        · rw [if_pos hsize] at hs
          simp only [List.mem_cons] at hs
          rcases hs with h | h | h | h
          · exact Ev.noConfusion h
          · exact Ev.noConfusion h
          · exact Ev.noConfusion h
          · exact ih (idx + 1) (k + 1) _ s h
        · rw [if_neg hsize] at hs
          rcases hh : (handleFile env idx f.size).2 with _ | er <;>
              rw [hh] at hs <;> simp only [] at hs
          · simp only [List.mem_cons, List.mem_append] at hs
            rcases hs with (h | h) | (h | h)
            · exact Ev.noConfusion h
            · exact absurd h ((handleFile_no_advance env idx f.size).2 s)
            · exact Ev.noConfusion h
            · exact ih (idx + 1) (k + 1) _ s h
          · by_cases hq : er.quotaClassified = true
            · rw [if_pos hq] at hs
              simp only [List.mem_cons, List.mem_append] at hs
              rcases hs with (h | h) | (h | h | h | h)
              · exact Ev.noConfusion h
              · exact absurd h ((handleFile_no_advance env idx f.size).2 s)
              · exact Ev.noConfusion h
              · cases h
                rfl
              · exact Ev.noConfusion h
              · exact ih (idx + 1) (k + 2) db s h
            · rw [if_neg hq] at hs
              simp only [List.mem_cons, List.mem_append] at hs
              rcases hs with (h | h) | (h | h)
              · exact Ev.noConfusion h
              · exact absurd h ((handleFile_no_advance env idx f.size).2 s)
              · exact Ev.noConfusion h
              · exact ih (idx + 1) (k + 1) db s h
    · rw [if_neg hf] at hs
      simp at hs

/-- A loop iteration whose flag read returns false stops at once: the
cancellation notice is the only event, the store is untouched, and exactly
one further flag read was consumed. -/
theorem runLoop_cancel_immediate (env : Env) (sid now : Nat)
    (files : List FileInfo) (fuel idx k : Nat) (db : Db)
    (hf : env.flags k = false) (hfuel : 0 < fuel) :
    runLoop env sid now files fuel idx k db =
      ([Ev.flagRead k false, Ev.cancelledNotify], db, k + 1) := by
  rcases fuel with _ | n
  · omega
  · rw [runLoop, if_neg (by simp [hf])]

/-- runSession's trace is the loop trace followed only by index-free
bookkeeping events (the post-loop flag read and the completion notice). -/
theorem runSession_trace (env : Env) (sid now startIdx : Nat)
    (files : List FileInfo) (db : Db) :
    ∃ tail, (runSession env sid now startIdx files db).1 =
      (runLoop env sid now files (files.length - startIdx) startIdx 0 db).1
        ++ tail ∧ ∀ e ∈ tail, evIdx e = none := by
  unfold runSession
  simp only []
  by_cases hf : env.flags
      (runLoop env sid now files (files.length - startIdx) startIdx 0
        db).2.2 = true
  · rw [if_pos hf]
    rcases hc : complete_session sid now
        (runLoop env sid now files (files.length - startIdx) startIdx 0
          db).2.1 with _ | db2 <;> simp only []
    · refine ⟨_, rfl, ?_⟩
      intro e he
      simp at he
      subst he
      rfl
    · refine ⟨_, rfl, ?_⟩
      intro e he
      simp at he
      rcases he with rfl | rfl <;> rfl
  · rw [if_neg hf]
    refine ⟨_, rfl, ?_⟩
    intro e he
    simp at he
    subst he
    rfl

/-- With a matching active session, process_mega_folder takes the resume
branch: loop from the stored cursor over the stored file list. -/
theorem process_resume (env : Env) (user now : Nat) (link : String) (db : Db)
    (s : SessionRow) (hs : get_session user db = some s)
    (hlink : s.folderLink = link) :
    process_mega_folder env user link now db =
      runSession env s.id now s.currentIndex
        ((get_session_files s.id db).map fileInfoOfRow) db := by
  unfold process_mega_folder
  rw [hs]
  simp [hlink]

/-- C3: a run for a (user, folder_reference) whose active session has
cursor k over N stored files touches exactly the indices of [k, N) — every
index-tagged event stays in that window, every index in the window is
skipped or download-attempted — in ascending (stored, file_index ascending)
order, and in particular no download or upload is invoked for any index in
[0, k). -/
theorem resume_processes_exactly_tail (env : Env) (db : Db)
    (user now : Nat) (link : String) (s : SessionRow)
    (hs : get_session user db = some s) (hlink : s.folderLink = link)
    (hflags : ∀ j, env.flags j = true)
    (hkN : s.currentIndex ≤ (get_session_files s.id db).length) :
    (∀ e ∈ (process_mega_folder env user link now db).1,
        ∀ j, evIdx e = some j →
        s.currentIndex ≤ j ∧ j < (get_session_files s.id db).length) ∧
    (∀ j, s.currentIndex ≤ j → j < (get_session_files s.id db).length →
        Ev.skip j ∈ (process_mega_folder env user link now db).1 ∨
          Ev.dlAttempt j 0 ∈ (process_mega_folder env user link now db).1) ∧
    ((process_mega_folder env user link now db).1.filterMap evIdx).Sorted
      (· ≤ ·) ∧
    ((get_session_files s.id db).map (fun fr => fr.fileIndex)).Sorted
      (· ≤ ·) := by
  have hp := process_resume env user now link db s hs hlink
  obtain ⟨tail, htr, htail⟩ := runSession_trace env s.id now s.currentIndex
    ((get_session_files s.id db).map fileInfoOfRow) db
  have hlen : ((get_session_files s.id db).map fileInfoOfRow).length
      = (get_session_files s.id db).length := List.length_map _ _
  refine ⟨?_, ?_, ?_, ?_⟩
  · intro e he j hj
    rw [hp, htr] at he
    rcases List.mem_append.mp he with he | he
    · have hb := runLoop_evIdx_bounds env s.id now _ _ _ _ _ e he j hj
      rw [hlen] at hb
      omega
    · rw [htail e he] at hj
      exact Option.noConfusion hj
  · intro j h1 h2
    have ht := runLoop_touch env s.id now
      ((get_session_files s.id db).map fileInfoOfRow) hflags
      (((get_session_files s.id db).map fileInfoOfRow).length
        - s.currentIndex) s.currentIndex 0 db j h1 (by omega) (by omega)
    rw [hp, htr]
    rcases ht with h | h
    · exact Or.inl (List.mem_append_left _ h)
    · exact Or.inr (List.mem_append_left _ h)
  · rw [hp, htr, List.filterMap_append]
    have htail0 : tail.filterMap evIdx = [] := by
      rw [List.filterMap_eq_nil_iff]
      exact htail
    rw [htail0, List.append_nil]
    exact runLoop_sorted env s.id now _ _ _ _ _
  · unfold get_session_files
    have hsorted := List.sorted_insertionSort byIndex
      ((db.files.filter fun f => f.sessionId == s.id))
    exact List.Pairwise.map _ (fun a b hab => hab) hsorted

/-- C3 witness: resuming dbC3 (cursor 1 of 3 files) attempts file index 2. -/
theorem resume_processes_exactly_tail_witness :
    Ev.skip 2 ∈ (process_mega_folder envC3 7 "A" 5 dbC3).1 ∨
      Ev.dlAttempt 2 0 ∈ (process_mega_folder envC3 7 "A" 5 dbC3).1 :=
  (resume_processes_exactly_tail envC3 dbC3 7 5 "A"
      ⟨1, 7, "A", 1, .downloading, 0, 0⟩ rfl rfl (fun _ => rfl)
      (by decide)).2.1 2 (by decide) (by decide)

/-- C2 counterexample: a fresh two-file run in which file 0 fails
non-retryably and file 1 succeeds.  The failure at index 0 is notified, yet
after the run the session's cursor stands at 2 — advanced past the failed
index by file 1's success — and file 0's row is Completed (marked by the
cursor advance and by complete_session), not Pending: index 0 is not the
resume point of any future run. -/
theorem per_file_failure_counterexample :
    Ev.failNotify 0 ∈ (process_mega_folder envC2 7 "B" 1 Db.empty).1 ∧
    (process_mega_folder envC2 7 "B" 1 Db.empty).2.1.sessions =
      [⟨1, 7, "B", 2, .completed, 1, 1⟩] ∧
    (process_mega_folder envC2 7 "B" 1 Db.empty).2.1.files =
      [⟨1, 0, "h1", "doc.txt", 5, .completed⟩,
       ⟨1, 1, "h2", "pic.png", 7, .completed⟩] := by
  refine ⟨?_, rfl, rfl⟩
  decide

/-- C2 amended: handling a per-file failure at index idx performs no store
mutation at all — in particular no cursor advance, so the failed file's row
is still Pending at that point — and the loop continues with index idx + 1;
the failed index stops being the resume point as soon as a later file
succeeds or is skipped (cursor advance past it) or the loop reaches the end
of the list with the flag still true (complete_session marks the session
and every file Completed). -/
theorem per_file_failure_amended (env : Env) (sid now fuel idx k : Nat)
    (db : Db) (files : List FileInfo) (f : FileInfo) (er : FileErr)
    (hflag : env.flags k = true)
    (hget : files.get? idx = some f)
    (hsize : ¬ Config.MAX_FILE_SIZE < f.size)
    (herr : (handleFile env idx f.size).2 = some er) :
    (runLoop env sid now files (fuel + 1) idx k db).2.1 =
      (runLoop env sid now files fuel (idx + 1)
        (k + (if er.quotaClassified then 2 else 1)) db).2.1 ∧
    (runLoop env sid now files (fuel + 1) idx k db).1 =
      (Ev.flagRead k true :: (handleFile env idx f.size).1) ++
        ((if er.quotaClassified then
            [Ev.quotaNotify idx, Ev.backoffSleep Config.RETRY_DELAY,
             Ev.flagRead (k + 1) (env.flags (k + 1))]
          else [Ev.failNotify idx]) ++
         (runLoop env sid now files fuel (idx + 1)
            (k + (if er.quotaClassified then 2 else 1)) db).1) ∧
    (∀ n, Ev.advance n ∉ (handleFile env idx f.size).1) := by
  rw [runLoop, if_pos hflag, hget]
  simp only []
  rw [if_neg hsize]
  rw [herr]
  simp only []
  by_cases hq : er.quotaClassified = true
  · simp only [hq, eq_self_iff_true, if_true]
    exact ⟨by trivial, by simp, (handleFile_no_advance env idx f.size).1⟩
  · rw [Bool.not_eq_true] at hq
    simp only [hq, Bool.false_eq_true, if_false]
    exact ⟨by trivial, by simp, (handleFile_no_advance env idx f.size).1⟩

/-- C2 witness for the amended statement: the failure of file 0 in envC2
leaves the store argument of the continuation unchanged. -/
theorem per_file_failure_amended_witness :
    (runLoop envC2 1 1 [fX, fY] 2 0 0 dbA).2.1 =
      (runLoop envC2 1 1 [fX, fY] 1 1 1 dbA).2.1 :=
  (per_file_failure_amended envC2 1 1 1 0 0 dbA [fX, fY] fX .download rfl rfl
    (by decide) (by decide)).1

/-- C5 counterexample: every download attempt of file 0 hits the quota and
the user's flag turns false while the handler backoff sleeps (read 1 —
immediately after the sleep — returns false).  The trace shows the full
RETRY_DELAY = 60 seconds slept after cancellation was requested: the sleep
is not cut short, and the tenacity-level sleeps (4, 4, 8, 16) before it
never consult the flag at all. -/
theorem cancel_backoff_counterexample :
    (process_mega_folder envC5 7 "A" 5 dbA).1 =
      [Ev.flagRead 0 true, Ev.dlAttempt 0 0, Ev.retrySleep 4,
       Ev.dlAttempt 0 1, Ev.retrySleep 4, Ev.dlAttempt 0 2, Ev.retrySleep 8,
       Ev.dlAttempt 0 3, Ev.retrySleep 16, Ev.dlAttempt 0 4,
       Ev.deleteLocal 0, Ev.quotaNotify 0, Ev.backoffSleep 60,
       Ev.flagRead 1 false, Ev.flagRead 2 false] ∧
    envC5.flags 1 = false ∧ Config.RETRY_DELAY = 60 ∧
    (process_mega_folder envC5 7 "A" 5 dbA).2.2 = RunOutcome.cancelled :=
  ⟨rfl, rfl, rfl, rfl⟩

/-- C5 amended: cancellation never shortens a backoff — every handler-level
backoff sleep in any run lasts the full RETRY_DELAY — and the flag is
honored only at iteration boundaries: an iteration whose flag read returns
false stops immediately, with no further download attempt and no store
mutation. -/
theorem cancel_backoff_amended (env : Env) (sid now : Nat)
    (files : List FileInfo) (fuel idx k : Nat) (db : Db) :
    (∀ s, Ev.backoffSleep s ∈ (runLoop env sid now files fuel idx k db).1 →
        s = Config.RETRY_DELAY) ∧
    (env.flags k = false → 0 < fuel →
      runLoop env sid now files fuel idx k db =
        ([Ev.flagRead k false, Ev.cancelledNotify], db, k + 1)) :=
  ⟨fun s hs => runLoop_backoff_const env sid now files fuel idx k db s hs,
   fun hf hfuel =>
     runLoop_cancel_immediate env sid now files fuel idx k db hf hfuel⟩

/-- C5 witness for the amended statement: in the envC5 run the sleep that
does occur has length RETRY_DELAY, and the iteration after the flag turned
false stops immediately with the store untouched. -/
theorem cancel_backoff_amended_witness :
    runLoop envC5 1 5 [fX] 1 1 1 dbA
        = ([Ev.flagRead 1 false, Ev.cancelledNotify], dbA, 2) ∧
      (60 : Nat) = Config.RETRY_DELAY :=
  ⟨(cancel_backoff_amended envC5 1 5 [fX] 1 1 1 dbA).2 rfl (by decide),
   (cancel_backoff_amended envC5 1 5 [fX] 1 0 0 dbA).1 60 (by decide)⟩

/-- C1: the /download entry point does reject a second run for a user whose
flag is set, without touching the store or emitting any pipeline event; but
the direct-link entry point (main.handle_mega_link) performs no
active_downloads check at all — with the flag set it still starts
process_mega_folder, which here cancels the first run's session and creates
a new one: a SessionStore mutation on what the claim says is a rejected
path.  The claim's "every entry point" is therefore violated by the code. -/
theorem single_flight_entry_guard :
    (∀ (args : List String) (env : Env) (user now : Nat) (db : Db),
        download_command true args env user now db
          = (.rejectedActive, [], db)) ∧
    handle_mega_link true "https://mega.nz/folder/ZZ#KK" envC1 7 5 dbA =
      (.ran .cancelled,
       [Ev.flagRead 0 false, Ev.cancelledNotify, Ev.flagRead 1 false],
       dbC1after) ∧
    (dbA.sessions == dbC1after.sessions) = false := by
  exact ⟨fun args env user now db => rfl, rfl, by decide⟩

end MegaBot
